import Mathlib

/-!
# Verification of the dynarmic A32 translation front-end

Shallow embedding of `src/frontend/A32/translate/translate_arm.cpp` and
`src/frontend/ir/basic_block.cpp` (project dynarmic, A32 front-end).

Machine integers are modelled as `Nat` with explicit reduction modulo `2^32`
where the C++ `u32` arithmetic can wrap.  C++ `ASSERT`/`ASSERT_MSG` calls are
modelled as proof obligations / hypotheses of the theorems rather than as
runtime aborts; each dropped assertion is noted at the definition it guards.
Code of the repository that is not part of the two translated files (headers,
the IR emitter, decode tables, per-instruction handlers) is modelled from the
specification and marked as such in its doc comment.
-/

set_option maxHeartbeats 1000000

namespace Dynarmic

/-- Embedding of `A32::LocationDescriptor`: a program counter (`u32`) plus the
processor-context flags that affect instruction semantics.  Two locations are
equal iff all fields match. -/
structure LocationDescriptor where
  arm_pc : Nat
  tflag : Bool
  eflag : Bool
  fpscr : Nat
deriving DecidableEq, Repr

/-- `LocationDescriptor::AdvancePC(n)`: a new descriptor with the PC advanced
by `n` (wrapping `u32` addition) and all other fields preserved. -/
def LocationDescriptor.AdvancePC (l : LocationDescriptor) (amount : Nat) : LocationDescriptor :=
  { l with arm_pc := (l.arm_pc + amount) % 4294967296 }

/-- The A32 condition codes (`A32::Cond`). -/
inductive Cond
  | EQ | NE | CS | CC | MI | PL | VS | VC
  | HI | LS | GE | LT | GT | LE | AL | NV
deriving DecidableEq, Repr

/-- The guest-visible exception kinds raised by the translator
(`Dynarmic::A32::Exception`; only the members used by the translated code). -/
inductive Exception
  | UndefinedInstruction
  | UnpredictableInstruction
deriving DecidableEq, Repr

/-- Numeric code of an exception, as stored in the immediate operand of the
exception-raised IR instruction. -/
def exceptionCode : Exception → Nat
  | .UndefinedInstruction => 0
  | .UnpredictableInstruction => 1

/-- IR value types (`IR::Type`; the members needed by the embedded code). -/
inductive IRType
  | Void | U1 | U8 | U16 | U32 | U64 | A32Reg
deriving DecidableEq, Repr

/-- IR opcodes (`IR::Opcode`; a representative closed subset sufficient for the
instructions the embedded code appends and dumps). -/
inductive Opcode
  | A32ExceptionRaised
  | A32SetCpsr
  | A32GetRegister
  | A32SetRegister
  | Add32
deriving DecidableEq, Repr

/-- Modelled from the spec: opcode result types (`IR::GetTypeOf` lives in
`frontend/ir/opcodes.cpp`, which is not among the translated files). -/
def GetTypeOf : Opcode → IRType
  | .A32ExceptionRaised => .Void
  | .A32SetCpsr => .Void
  | .A32GetRegister => .U32
  | .A32SetRegister => .Void
  | .Add32 => .U32

/-- Modelled from the spec: opcode mnemonics (`IR::GetNameOf`). -/
def GetNameOf : Opcode → String
  | .A32ExceptionRaised => "A32ExceptionRaised"
  | .A32SetCpsr => "A32SetCpsr"
  | .A32GetRegister => "A32GetRegister"
  | .A32SetRegister => "A32SetRegister"
  | .Add32 => "Add32"

/-- Modelled from the spec: declared formal argument types of each opcode
(`IR::GetArgTypeOf`). -/
def GetArgTypesOf : Opcode → List IRType
  | .A32ExceptionRaised => [.U32, .U64]
  | .A32SetCpsr => [.U32]
  | .A32GetRegister => [.A32Reg]
  | .A32SetRegister => [.A32Reg, .U32]
  | .Add32 => [.U32, .U32, .U1]

/-- Modelled from the spec: declared arity of each opcode (`IR::GetNumArgsOf`). -/
def GetNumArgsOf (op : Opcode) : Nat :=
  (GetArgTypesOf op).length

/-- Modelled from the spec: `Inst::WritesToCPSR`, the per-opcode predicate used
by the conservative block-extension check ("writes the guest's condition-flags
register"); `frontend/ir/microinstruction.cpp` is not among the translated
files. -/
def writesToCPSR : Opcode → Bool
  | .A32SetCpsr => true
  | _ => false

/-- Embedding of `IR::Value`: empty, a typed immediate, or a reference to an
instruction node (identified here by its arena slot `addr`, carrying the
referenced opcode as the pointer dereference would). -/
inductive Value
  | empty
  | u1 (b : Bool)
  | u8 (n : Nat)
  | u16 (n : Nat)
  | u32 (n : Nat)
  | u64 (n : Nat)
  | a32reg (r : Nat)
  | instRef (addr : Nat) (op : Opcode)
deriving DecidableEq, Repr

/-- `Value::IsEmpty`. -/
def Value.IsEmpty : Value → Bool
  | .empty => true
  | _ => false

/-- `Value::IsImmediate`: everything except an instruction reference (the C++
empty value is not a reference either; `DumpBlock` tests emptiness first). -/
def Value.IsImmediate : Value → Bool
  | .instRef _ _ => false
  | _ => true

/-- `Value::GetType`: type tag of an immediate, or the result type of the
referenced instruction's opcode. -/
def Value.GetType : Value → IRType
  | .empty => .Void
  | .u1 _ => .U1
  | .u8 _ => .U8
  | .u16 _ => .U16
  | .u32 _ => .U32
  | .u64 _ => .U64
  | .a32reg _ => .A32Reg
  | .instRef _ op => GetTypeOf op

/-- Modelled from the spec: `IR::AreTypesCompatible` (in `opcodes.cpp`, not
among the translated files): an argument's actual type must agree with the
opcode's declared formal type. -/
def AreTypesCompatible (actual expected : IRType) : Bool :=
  actual = expected

/-- Embedding of `IR::Inst`: opcode, argument list and use count.  `addr`
models the instruction node's arena address (a stable identity used by the
debug dump and by back-references). -/
structure Inst where
  addr : Nat
  opcode : Opcode
  args : List Value
  use_count : Nat
deriving DecidableEq, Repr

/-- Embedding of `IR::Terminal` (a `boost::variant` whose first alternative,
`which() == 0`, is the invalid/unset state). -/
inductive Terminal
  | Invalid
  | Interpret (next : LocationDescriptor)
  | ReturnToDispatch
  | LinkBlock (next : LocationDescriptor)
  | LinkBlockFast (next : LocationDescriptor)
  | PopRSBHint
  | If (cond : Cond) (then_ : Terminal) (else_ : Terminal)
  | CheckBit (then_ : Terminal) (else_ : Terminal)
  | CheckHalt (else_ : Terminal)
deriving DecidableEq, Repr

/-- Embedding of `A32::ConditionalState`. -/
inductive ConditionalState
  | None
  | Translating
  | Trailing
  | Break
deriving DecidableEq, Repr

/-- Embedding of `IR::Block`: entry and end location, entry condition,
optional condition-failed location with its private cycle count, the owned
instruction list, the terminal and the cycle count. -/
structure Block where
  location : LocationDescriptor
  end_location : LocationDescriptor
  cond : Cond
  cond_failed : Option LocationDescriptor
  cond_failed_cycle_count : Nat
  instructions : List Inst
  terminal : Terminal
  cycle_count : Nat
deriving DecidableEq, Repr

/-- Modelled from the spec: the `IR::Block` constructor (declared in
`frontend/ir/basic_block.h`, not among the translated files).  A fresh block
has entry condition "always" (`AL`), no condition-failed location, an empty
instruction list, an unset terminal and a zero cycle count. -/
def freshBlock (descriptor : LocationDescriptor) : Block :=
  { location := descriptor
    end_location := descriptor
    cond := Cond.AL
    cond_failed := Option.none
    cond_failed_cycle_count := 0
    instructions := []
    terminal := Terminal.Invalid
    cycle_count := 0 }

/-- `Block::empty()` (via the intrusive instruction list). -/
def Block.empty (b : Block) : Bool :=
  b.instructions.isEmpty

/-- `Block::SetCondition`. -/
def Block.SetCondition (b : Block) (condition : Cond) : Block :=
  { b with cond := condition }

/-- `Block::SetConditionFailedLocation`. -/
def Block.SetConditionFailedLocation (b : Block) (fail_location : LocationDescriptor) : Block :=
  { b with cond_failed := some fail_location }

/-- `Block::HasConditionFailedLocation`. -/
def Block.HasConditionFailedLocation (b : Block) : Bool :=
  b.cond_failed.isSome

/-- `Block::SetTerminal`.  The C++ asserts that the terminal has not been set
before (`ASSERT_MSG(!HasTerminal(), ...)`); the assertion is modelled as a
side condition of the call sites, which only reach this with an unset
terminal. -/
def Block.SetTerminal (b : Block) (term : Terminal) : Block :=
  { b with terminal := term }

/-- `Block::HasTerminal`: the variant is not in its invalid (unset) state. -/
def Block.HasTerminal (b : Block) : Bool :=
  b.terminal ≠ Terminal.Invalid

/-- `Block::SetEndLocation`. -/
def Block.SetEndLocation (b : Block) (descriptor : LocationDescriptor) : Block :=
  { b with end_location := descriptor }

/-- `Block::AppendNewInst`: construct an instruction node in the block's arena
(its slot index models the arena address) with the given opcode and arguments
and append it to the instruction list.  The arguments appended by the embedded
code are immediates, so no use-count updates arise here. -/
def Block.AppendNewInst (b : Block) (op : Opcode) (args : List Value) : Block :=
  { b with instructions := b.instructions ++ [⟨b.instructions.length, op, args, 0⟩] }

/-- The mutable state of an `ArmTranslatorVisitor` together with its
`A32::IREmitter`: the block being built, the conditional state, and the
emitter's current location. -/
structure TState where
  block : Block
  cond_state : ConditionalState
  current_location : LocationDescriptor
deriving DecidableEq, Repr

/-- Modelled from the spec: `IREmitter::ExceptionRaised` (in
`frontend/A32/ir_emitter.cpp`, not among the translated files) appends one
exception-marker IR instruction recording the current PC and the exception
kind. -/
def TState.ExceptionRaised (s : TState) (e : Exception) : TState :=
  { s with block := (s.block.AppendNewInst Opcode.A32ExceptionRaised
      [Value.u32 s.current_location.arm_pc, Value.u64 (exceptionCode e)]) }

/-- `IREmitter::SetTerm`, forwarding to `Block::SetTerminal`. -/
def TState.SetTerm (s : TState) (t : Terminal) : TState :=
  { s with block := s.block.SetTerminal t }

/-- Embedding of `ArmTranslatorVisitor::ConditionPassed` (translate_arm.cpp
lines 93-141).  The entry assertion `cond_state != Break` is modelled as a
hypothesis of the theorems.  The C++ reads
`ir.block.ConditionFailedLocation()` (an `optional::value()`) only in the
`Translating` state, where the condition-failed location is always present;
the embedding compares the optional directly. -/
def ConditionPassed (s : TState) (cond : Cond) : Bool × TState :=
  if cond = Cond.NV then
    -- NV conditional is obsolete
    (false, s.ExceptionRaised Exception.UnpredictableInstruction)
  else if s.cond_state = ConditionalState.Translating
          ∧ s.block.cond_failed = some s.current_location
          ∧ cond ≠ Cond.AL then
    if cond = s.block.cond then
      (true, { s with block :=
        { s.block with
            cond_failed := some (s.current_location.AdvancePC 4)
            cond_failed_cycle_count := s.block.cond_failed_cycle_count + 1 } })
    else
      -- cond has changed, abort
      (false, { (s.SetTerm (Terminal.LinkBlockFast s.current_location)) with
                  cond_state := ConditionalState.Break })
  else
    -- when the region is over (location mismatch or AL) a Translating visitor
    -- transitions to Trailing and falls through to the unconditional cases
    let s := if s.cond_state = ConditionalState.Translating
             then { s with cond_state := ConditionalState.Trailing } else s
    if cond = Cond.AL then
      -- Everything is fine with the world
      (true, s)
    else if ¬ s.block.empty then
      -- We've already emitted instructions. Quit for now.
      (false, { (s.SetTerm (Terminal.LinkBlockFast s.current_location)) with
                  cond_state := ConditionalState.Break })
    else
      -- We've not emitted instructions yet: adopt the condition; the C++
      -- writes 1 through the reference accessor ConditionFailedCycleCount().
      (true, { s with
          cond_state := ConditionalState.Translating
          block := { (s.block.SetCondition cond).SetConditionFailedLocation
                       (s.current_location.AdvancePC 4) with
                     cond_failed_cycle_count := 1 } })

/-- `ArmTranslatorVisitor::InterpretThisInstruction` (translate_arm.cpp lines
143-146). -/
def InterpretThisInstruction (s : TState) : Bool × TState :=
  (false, s.SetTerm (Terminal.Interpret s.current_location))

/-- `ArmTranslatorVisitor::UnpredictableInstruction` (translate_arm.cpp lines
148-152): raise the exception marker, terminate with
`CheckHalt{ReturnToDispatch{}}`, stop. -/
def UnpredictableInstruction (s : TState) : Bool × TState :=
  (false, (s.ExceptionRaised Exception.UnpredictableInstruction).SetTerm
            (Terminal.CheckHalt Terminal.ReturnToDispatch))

/-- `ArmTranslatorVisitor::UndefinedInstruction` (translate_arm.cpp lines
154-158): raise the exception marker, terminate with
`CheckHalt{ReturnToDispatch{}}`, stop. -/
def UndefinedInstruction (s : TState) : Bool × TState :=
  (false, (s.ExceptionRaised Exception.UndefinedInstruction).SetTerm
            (Terminal.CheckHalt Terminal.ReturnToDispatch))

/-- Modelled from the spec: `ArmTranslatorVisitor::arm_UDF`, the explicit
undefined-instruction fallback handler the driver loop invokes for a word no
decode table matches; it routes to `UndefinedInstruction` (§7(b)). -/
def arm_UDF (s : TState) : Bool × TState :=
  UndefinedInstruction s

/-- A semantic handler bound to a decoded instruction word: it may mutate the
visitor/emitter state and returns the continuation flag. -/
def Handler : Type :=
  TState → Bool × TState

/-- Modelled from the spec (§4.2): the shape of a condition-code-carrying
handler.  It first consults the `ConditionPassed` gate; when the gate
declines, it emits nothing and reports "continue" (the driver loop inspects
`cond_state` separately); when the gate accepts, it runs its emission body. -/
def condGatedHandler (cond : Cond) (body : Handler) : Handler :=
  fun s =>
    match ConditionPassed s cond with
    | (true, s') => body s'
    | (false, s') => (true, s')

/-- Embedding of `CondCanContinue` (translate_arm.cpp lines 21-29).  The
assertion `cond_state != Break` is modelled as a hypothesis where needed: the
driver loop only consults this after a non-breaking iteration. -/
def CondCanContinue (cond_state : ConditionalState) (b : Block) : Bool :=
  if cond_state = ConditionalState.None then
    true
  else
    b.instructions.all (fun inst => ¬ writesToCPSR inst.opcode)

/-- Modelled from the spec (§4.1): the decoder dispatch.  The C++ consults the
VFP extension table first and then the base ARM table (both generated decode
tables outside the translated files); the priority search is abstracted as a
single partial lookup from instruction words to handlers, `none` meaning no
table matched. -/
def Decoder : Type :=
  Nat → Option Handler

/-- One decode-dispatch step of the driver loop (translate_arm.cpp lines
40-46): the matched handler, or the `arm_UDF` fallback. -/
def dispatch (decode : Decoder) (word : Nat) : Handler :=
  match decode word with
  | some h => h
  | Option.none => arm_UDF

/-- Embedding of the `TranslateArm` while-loop (translate_arm.cpp lines
35-54), with an explicit fuel bound in place of the C++ unbounded loop.  Each
iteration: re-check `should_continue && CondCanContinue`, fetch the word at
the current PC, dispatch it, stop immediately (no PC advance, no cycle
increment) if the handler left `cond_state == Break`, otherwise advance the
PC by 4 and increment the block's cycle count. -/
def translateLoop (memory_read_code : Nat → Nat) (decode : Decoder) :
    Nat → Bool → TState → Bool × TState
  | 0, should_continue, s => (should_continue, s)
  | fuel + 1, should_continue, s =>
    if should_continue ∧ CondCanContinue s.cond_state s.block then
      let arm_instruction := memory_read_code s.current_location.arm_pc
      let r := dispatch decode arm_instruction s
      if r.2.cond_state = ConditionalState.Break then
        r
      else
        translateLoop memory_read_code decode fuel r.1
          { r.2 with
              current_location := r.2.current_location.AdvancePC 4
              block := { r.2.block with cycle_count := r.2.block.cycle_count + 1 } }
    else
      (should_continue, s)

/-- Embedding of the `TranslateArm` epilogue (translate_arm.cpp lines 56-64):
after the loop, a `Translating`/`Trailing` visitor whose last handler said
"continue" gets the default fall-through terminal, and the end location is
set to the current location.  The C++ `ASSERT_MSG(block.HasTerminal(), ...)`
is modelled as a property of the runs considered, not as an abort. -/
def translateFinalize (should_continue : Bool) (s : TState) : Block :=
  let b :=
    if (s.cond_state = ConditionalState.Translating
          ∨ s.cond_state = ConditionalState.Trailing)
        ∧ should_continue then
      s.block.SetTerminal (Terminal.LinkBlockFast s.current_location)
    else
      s.block
  b.SetEndLocation s.current_location

/-- Embedding of `TranslateArm` (translate_arm.cpp lines 31-67): fresh block
and visitor at `descriptor`, run the driver loop, finalize. -/
def TranslateArm (fuel : Nat) (descriptor : LocationDescriptor)
    (memory_read_code : Nat → Nat) (decode : Decoder) : Block :=
  let s0 : TState :=
    { block := freshBlock descriptor
      cond_state := ConditionalState.None
      current_location := descriptor }
  let r := translateLoop memory_read_code decode fuel true s0
  translateFinalize r.1 r.2

/-- The initial visitor state of `TranslateArm` at `descriptor`. -/
def initState (descriptor : LocationDescriptor) : TState :=
  { block := freshBlock descriptor
    cond_state := ConditionalState.None
    current_location := descriptor }

/-- The driver-loop context of one `ConditionPassed` call per instruction of a
conditional run: call the gate at the current location, then (as the loop
does after a non-breaking iteration) advance the current location by one
instruction width.  Iterated to model N consecutive conditional
instructions. -/
def condStep (cond : Cond) (s : TState) : TState :=
  let s' := (ConditionPassed s cond).2
  { s' with current_location := s'.current_location.AdvancePC 4 }

/-- `k` iterations of `condStep`. -/
def condSeq (cond : Cond) (s : TState) : Nat → TState
  | 0 => s
  | k + 1 => condStep cond (condSeq cond s k)

/-- Lowercase hexadecimal rendering of a natural number (the `fmt` `x`
presentation). -/
def hexStr (n : Nat) : String :=
  String.mk (Nat.toDigits 16 n)

/-- The `fmt` `{:#x}` presentation: `0x` prefix plus lowercase hex digits. -/
def hexAlt (n : Nat) : String :=
  "0x" ++ hexStr n

/-- The `fmt` `{:016x}` presentation: lowercase hex, zero-padded to width
16. -/
def hexPad16 (n : Nat) : String :=
  let s := hexStr n
  String.mk (List.replicate (16 - s.length) '0') ++ s

/-- The `fmt` `{:<5}` presentation of an index: decimal, left-justified to
width 5 with spaces. -/
def padRight5 (n : Nat) : String :=
  let s := toString n
  s ++ String.mk (List.replicate (5 - s.length) ' ')

/-- Modelled from the spec: `A64::CondToString` (`frontend/A64/types.cpp`, not
among the translated files): the conventional lowercase condition-code
mnemonics. -/
def CondToString : Cond → String
  | .EQ => "eq" | .NE => "ne" | .CS => "cs" | .CC => "cc"
  | .MI => "mi" | .PL => "pl" | .VS => "vs" | .VC => "vc"
  | .HI => "hi" | .LS => "ls" | .GE => "ge" | .LT => "lt"
  | .GT => "gt" | .LE => "le" | .AL => "al" | .NV => "nv"

/-- Modelled from the spec: `A32::RegToString` (`frontend/A32/types.cpp`, not
among the translated files). -/
def RegToString (r : Nat) : String :=
  "r" ++ toString r

/-- Modelled from the spec: the stream rendering of a `LocationDescriptor`
(`frontend/A32/location_descriptor.cpp`, not among the translated files):
program counter and context flags, all fields shown. -/
def locToString (l : LocationDescriptor) : String :=
  "\x7b" ++ hexAlt l.arm_pc ++ "," ++ (if l.tflag then "T" else "!T") ++ ","
    ++ (if l.eflag then "E" else "!E") ++ "," ++ hexAlt l.fpscr ++ "\x7d"

/-- Rendering of an `IRType` name (used by the dump's type-mismatch
annotation; `IR::GetNameOf(Type)` is outside the translated files). -/
def IRTypeName : IRType → String
  | .Void => "Void"
  | .U1 => "U1"
  | .U8 => "U8"
  | .U16 => "U16"
  | .U32 => "U32"
  | .U64 => "U64"
  | .A32Reg => "A32Reg"

/-- Embedding of `TerminalToString` (basic_block.cpp lines 113-148). -/
def TerminalToString : Terminal → String
  | .Invalid => "<invalid terminal>"
  | .Interpret next => "Interpret\x7b" ++ locToString next ++ "\x7d"
  | .ReturnToDispatch => "ReturnToDispatch\x7b\x7d"
  | .LinkBlock next => "LinkBlock\x7b" ++ locToString next ++ "\x7d"
  | .LinkBlockFast next => "LinkBlockFast\x7b" ++ locToString next ++ "\x7d"
  | .PopRSBHint => "PopRSBHint\x7b\x7d"
  | .If c t e =>
      "If\x7b" ++ CondToString c ++ ", " ++ TerminalToString t ++ ", "
        ++ TerminalToString e ++ "\x7d"
  | .CheckBit t e =>
      "CheckBit\x7b" ++ TerminalToString t ++ ", " ++ TerminalToString e ++ "\x7d"
  | .CheckHalt e => "CheckHalt\x7b" ++ TerminalToString e ++ "\x7d"

/-- Embedding of the `arg_to_string` lambda of `DumpBlock` (basic_block.cpp
lines 164-192).  `inst_to_index` is the association list built so far; the
C++ `map::at` on a reference to an instruction not yet indexed would throw —
rendered here as a fixed marker (such a forward reference never occurs in a
well-formed block). -/
def argToString (inst_to_index : List (Nat × Nat)) : Value → String
  | .empty => "<null>"
  | .instRef a _ =>
      match (inst_to_index.find? (fun p => p.1 = a)).map Prod.snd with
      | some i => "%" ++ toString i
      | Option.none => "%<not yet indexed>"
  | .u1 b => "#" ++ (if b then "1" else "0")
  | .u8 n => "#" ++ toString n
  | .u16 n => "#" ++ hexAlt n
  | .u32 n => "#" ++ hexAlt n
  | .u64 n => "#" ++ hexAlt n
  | .a32reg r => RegToString r

/-- The argument-list segment of one dumped instruction line (basic_block.cpp
lines 206-218): separator, rendered argument, and the type-mismatch
annotation when the actual type disagrees with the declared formal type. -/
def dumpArgs (inst_to_index : List (Nat × Nat)) (inst : Inst) : String :=
  let arg_count := GetNumArgsOf inst.opcode
  (List.range arg_count).foldl
    (fun acc arg_index =>
      let arg := inst.args.getD arg_index Value.empty
      let acc := acc ++ (if arg_index ≠ 0 then ", " else " ")
      let acc := acc ++ argToString inst_to_index arg
      let actual_type := arg.GetType
      let expected_type := (GetArgTypesOf inst.opcode).getD arg_index IRType.Void
      if ¬ AreTypesCompatible actual_type expected_type then
        acc ++ "<type error: " ++ IRTypeName actual_type ++ " != "
          ++ IRTypeName expected_type ++ ">"
      else acc)
    ""

/-- One dumped instruction line (basic_block.cpp lines 194-223): arena
address, result slot (only when the opcode produces a typed result), mnemonic,
arguments, use count. -/
def dumpInstLine (inst_to_index : List (Nat × Nat)) (index : Nat) (inst : Inst) : String :=
  "[" ++ hexPad16 inst.addr ++ "] "
    ++ (if GetTypeOf inst.opcode ≠ IRType.Void
        then "%" ++ padRight5 index ++ " = "
        else "         ")
    ++ GetNameOf inst.opcode
    ++ dumpArgs inst_to_index inst
    ++ " (uses: " ++ toString inst.use_count ++ ")\n"

/-- The instruction-list portion of the dump: renders each instruction with a
running index, registering the instruction in `inst_to_index` after its line
is rendered (as the C++ `inst_to_index[&inst] = index++` does). -/
def dumpInsts (inst_to_index : List (Nat × Nat)) (index : Nat) : List Inst → String
  | [] => ""
  | inst :: rest =>
      dumpInstLine inst_to_index index inst
        ++ dumpInsts (inst_to_index ++ [(inst.addr, index)]) (index + 1) rest

/-- Embedding of `IR::DumpBlock` (basic_block.cpp lines 150-229): header with
location, cycle count, entry condition (plus the condition-fail location when
the entry condition is not `AL`), one line per instruction, and the rendered
terminal.  The C++ reads `block.ConditionFailedLocation()`
(`optional::value()`) only on the non-`AL` path; an absent value is rendered
here as a fixed marker (the invariant verified below rules it out). -/
def DumpBlock (block : Block) : String :=
  "Block: location=" ++ locToString block.location ++ "\n"
    ++ "cycles=" ++ toString block.cycle_count
    ++ ", entry_cond=" ++ CondToString block.cond
    ++ (if block.cond ≠ Cond.AL then
          ", cond_fail="
            ++ (match block.cond_failed with
                | some l => locToString l
                | Option.none => "<missing>")
        else "")
    ++ "\n"
    ++ dumpInsts [] 0 block.instructions
    ++ "terminal = " ++ TerminalToString block.terminal ++ "\n"

/-- One call of `DumpBlock` through its `const IR::Block&` parameter, in
state-passing form: the text produced together with the block as left behind
by the call (every access the function performs is a `const` accessor, so the
block passes through unchanged). -/
def DumpBlockCall (block : Block) : String × Block :=
  (DumpBlock block, block)

/-- The well-definedness invariant of the conditional metadata: a block whose
entry condition is not `AL` has a condition-failed location. -/
def CondInvariant (b : Block) : Prop :=
  b.cond ≠ Cond.AL → b.cond_failed.isSome

/-- A handler table preserves `CondInvariant`: every handler the decoder can
return takes invariant-satisfying visitor states to invariant-satisfying
ones. -/
def DecoderPreservesInv (decode : Decoder) : Prop :=
  ∀ w h, decode w = some h → ∀ s : TState,
    CondInvariant s.block → CondInvariant (h s).2.block

/-- A concrete translation point used by witnesses and counterexamples. -/
def loc0 : LocationDescriptor :=
  ⟨256, false, false, 0⟩

/-- A concrete already-emitted IR instruction used by counterexamples. -/
def dummyInst : Inst :=
  ⟨0, Opcode.A32SetRegister, [Value.a32reg 0, Value.u32 5], 0⟩

/-- A visitor state with conditional state `None` whose block already holds an
instruction. -/
def stateNoneNonempty : TState :=
  ⟨{ freshBlock loc0 with instructions := [dummyInst] },
   ConditionalState.None, loc0⟩

/-- A visitor state in the middle of an `EQ`-conditional region whose
condition-failed location matches the current location. -/
def stateTranslatingEQ : TState :=
  ⟨{ freshBlock loc0 with
       cond := Cond.EQ
       cond_failed := some loc0
       cond_failed_cycle_count := 1
       instructions := [dummyInst] },
   ConditionalState.Translating, loc0⟩

/-- Emission body of an always-executed arithmetic instruction handler: append
one `Add32` and continue (scenario fixture for the end-to-end claims). -/
def c4Body : Handler := fun s =>
  (true, s.block.AppendNewInst Opcode.Add32 [Value.u32 1, Value.u32 2, Value.u1 false]
          |> fun b => { s with block := b })

/-- An always-executed arithmetic instruction handler. -/
def c4Arith : Handler :=
  condGatedHandler Cond.AL c4Body

/-- An always-executed branch-to-self handler: sets the terminal to a link to
its own location and stops. -/
def c4BranchSelf : Handler :=
  condGatedHandler Cond.AL
    (fun s => (false, s.SetTerm (Terminal.LinkBlock s.current_location)))

/-- Decode table of the end-to-end scenario: word 0 is the arithmetic
instruction, word 1 the branch-to-self. -/
def c4Decode : Decoder := fun w =>
  if w = 0 then some c4Arith
  else if w = 1 then some c4BranchSelf
  else Option.none

/-- Code fetch of the end-to-end scenario: the arithmetic word at the entry
PC, the branch-to-self word everywhere after it. -/
def c4Fetch (d : LocationDescriptor) : Nat → Nat := fun pc =>
  if pc = d.arm_pc then 0 else 1

/-- An `NE`-conditional handler with a trivial emission body, used to force a
condition-change break against an `EQ`-conditional region. -/
def neHandler : Handler :=
  condGatedHandler Cond.NE (fun s => (true, s))

/-- Closed form of the visitor state after `k ≥ 1` accepted instructions of a
`c`-conditional run that began at `d` on a fresh block: the block has adopted
`c`, its condition-failed location tracks the current location (`d` advanced
by `4k`), and the private cycle count is `k`. -/
def condRegionState (c : Cond) (d : LocationDescriptor) (k : Nat) : TState :=
  { block :=
      { location := d
        end_location := d
        cond := c
        cond_failed := some (d.AdvancePC (4 * k))
        cond_failed_cycle_count := k
        instructions := []
        terminal := Terminal.Invalid
        cycle_count := 0 }
    cond_state := ConditionalState.Translating
    current_location := d.AdvancePC (4 * k) }

lemma translateLoop_of_not_continue (memory_read_code : Nat → Nat) (decode : Decoder)
    (fuel : Nat) (s : TState) :
    translateLoop memory_read_code decode fuel false s = (false, s) := by
  cases fuel <;> simp [translateLoop]

lemma AdvancePC_AdvancePC (l : LocationDescriptor) (a b : Nat) :
    (l.AdvancePC a).AdvancePC b = l.AdvancePC (a + b) := by
  simp [LocationDescriptor.AdvancePC, Nat.mod_add_mod, Nat.add_assoc]

lemma conditionPassed_extend_eq (s : TState) (c : Cond)
    (hstate : s.cond_state = ConditionalState.Translating)
    (hloc : s.block.cond_failed = some s.current_location)
    (hcond : s.block.cond = c)
    (hal : c ≠ Cond.AL) (hnv : c ≠ Cond.NV) :
    ConditionPassed s c =
      (true, { s with block :=
        { s.block with
            cond_failed := some (s.current_location.AdvancePC 4)
            cond_failed_cycle_count := s.block.cond_failed_cycle_count + 1 } }) := by
  simp [ConditionPassed, hstate, hloc, hcond, hal, hnv]

lemma conditionPassed_adopt_eq (s : TState) (c : Cond)
    (hstate : s.cond_state = ConditionalState.None)
    (hempty : s.block.instructions = [])
    (hal : c ≠ Cond.AL) (hnv : c ≠ Cond.NV) :
    ConditionPassed s c =
      (true, { s with
          cond_state := ConditionalState.Translating
          block := { s.block with
              cond := c
              cond_failed := some (s.current_location.AdvancePC 4)
              cond_failed_cycle_count := 1 } }) := by
  simp [ConditionPassed, hstate, hempty, hal, hnv, Block.empty,
    Block.SetCondition, Block.SetConditionFailedLocation]

lemma condSeq_closed (c : Cond) (d : LocationDescriptor)
    (hal : c ≠ Cond.AL) (hnv : c ≠ Cond.NV) :
    ∀ k : Nat, condSeq c (initState d) (k + 1) = condRegionState c d (k + 1) := by
  intro k
  induction k with
  | zero =>
      show condStep c (initState d) = condRegionState c d 1
      rw [condStep, conditionPassed_adopt_eq (initState d) c rfl rfl hal hnv]
      simp [initState, freshBlock, condRegionState]
  | succ n ih =>
      show condStep c (condSeq c (initState d) (n + 1)) = condRegionState c d (n + 2)
      rw [ih]
      rw [condStep, conditionPassed_extend_eq (condRegionState c d (n + 1)) c rfl rfl rfl hal hnv]
      simp only [condRegionState, AdvancePC_AdvancePC]
      ring_nf

/-- C1 counterexample: with `cond_state = None` but a block that already holds
an instruction, `ConditionPassed Cond.EQ` declines (returns `false`), moves to
`Break`, and leaves the entry condition at `AL` — contrary to the claim, which
predicts acceptance and adoption of `EQ` in every `None` state. -/
theorem conditionPassed_none_nonempty_declines :
    (ConditionPassed stateNoneNonempty Cond.EQ).1 = false
    ∧ (ConditionPassed stateNoneNonempty Cond.EQ).2.cond_state = ConditionalState.Break
    ∧ (ConditionPassed stateNoneNonempty Cond.EQ).2.block.cond = Cond.AL := by
  decide

/-- C1 (amended): for every condition code `c ≠ AL`, `c ≠ NV` passed to
`ConditionPassed` while `cond_state` is `None` and the block is still empty,
the call accepts, adopts `c` as the block's entry condition, records the
condition-failed location at the current location advanced by one instruction
width, sets the condition-failed cycle count to 1, and moves to
`Translating`. -/
theorem conditionPassed_none_empty_adopts (s : TState) (c : Cond)
    (hstate : s.cond_state = ConditionalState.None)
    (hempty : s.block.instructions = [])
    (hal : c ≠ Cond.AL) (hnv : c ≠ Cond.NV) :
    (ConditionPassed s c).1 = true
    ∧ (ConditionPassed s c).2.cond_state = ConditionalState.Translating
    ∧ (ConditionPassed s c).2.block.cond = c
    ∧ (ConditionPassed s c).2.block.cond_failed = some (s.current_location.AdvancePC 4)
    ∧ (ConditionPassed s c).2.block.cond_failed_cycle_count = 1 := by
  simp [ConditionPassed, hstate, hempty, hal, hnv, Block.empty,
    Block.SetCondition, Block.SetConditionFailedLocation]

/-- C1 witness: the amended theorem applied at a concrete input. -/
theorem conditionPassed_none_empty_adopts_witness :
    (ConditionPassed (initState loc0) Cond.EQ).1 = true
    ∧ (ConditionPassed (initState loc0) Cond.EQ).2.cond_state = ConditionalState.Translating
    ∧ (ConditionPassed (initState loc0) Cond.EQ).2.block.cond = Cond.EQ
    ∧ (ConditionPassed (initState loc0) Cond.EQ).2.block.cond_failed
        = some ((initState loc0).current_location.AdvancePC 4)
    ∧ (ConditionPassed (initState loc0) Cond.EQ).2.block.cond_failed_cycle_count = 1 :=
  conditionPassed_none_empty_adopts (initState loc0) Cond.EQ (by decide) (by decide)
    (by decide) (by decide)

/-- C2 counterexample: `NV` differs from both `AL` and the adopted condition
(`EQ` here), yet in a matching `Translating` state the call raises an
unpredictable-instruction exception instead of the claimed transition to
`Break` with a `LinkBlockFast` terminal. -/
theorem conditionPassed_translating_nv_no_break :
    (ConditionPassed stateTranslatingEQ Cond.NV).2.cond_state ≠ ConditionalState.Break
    ∧ (ConditionPassed stateTranslatingEQ Cond.NV).2.block.terminal
        ≠ Terminal.LinkBlockFast loc0 := by
  decide

/-- C2 (amended): in state `Translating`, when the current location equals the
recorded condition-failed location and the condition code differs from `AL`,
from the block's adopted condition, and from `NV`, the call moves to `Break`,
sets the terminal to `LinkBlockFast` at the current location, and declines. -/
theorem conditionPassed_translating_cond_change_breaks (s : TState) (c : Cond)
    (hstate : s.cond_state = ConditionalState.Translating)
    (hloc : s.block.cond_failed = some s.current_location)
    (hal : c ≠ Cond.AL) (hcond : c ≠ s.block.cond) (hnv : c ≠ Cond.NV) :
    (ConditionPassed s c).1 = false
    ∧ (ConditionPassed s c).2.cond_state = ConditionalState.Break
    ∧ (ConditionPassed s c).2.block.terminal
        = Terminal.LinkBlockFast s.current_location := by
  simp [ConditionPassed, hstate, hloc, hal, hcond, hnv, TState.SetTerm,
    Block.SetTerminal]

/-- C2 witness: the amended theorem applied at a concrete input. -/
theorem conditionPassed_translating_cond_change_breaks_witness :
    (ConditionPassed stateTranslatingEQ Cond.NE).1 = false
    ∧ (ConditionPassed stateTranslatingEQ Cond.NE).2.cond_state = ConditionalState.Break
    ∧ (ConditionPassed stateTranslatingEQ Cond.NE).2.block.terminal
        = Terminal.LinkBlockFast stateTranslatingEQ.current_location :=
  conditionPassed_translating_cond_change_breaks stateTranslatingEQ Cond.NE
    (by decide) (by decide) (by decide) (by decide) (by decide)

/-- C5: when the driver loop exits in state `Translating` or `Trailing` with
the last handler still reporting "continue" (and hence no terminal set), the
epilogue sets the default `LinkBlockFast` terminal at the current location and
then sets the block's end location to that same current location. -/
theorem translateFinalize_default_terminal (should_continue : Bool) (s : TState)
    (hsc : should_continue = true)
    (hstate : s.cond_state = ConditionalState.Translating
              ∨ s.cond_state = ConditionalState.Trailing)
    (hterm : s.block.terminal = Terminal.Invalid) :
    (translateFinalize should_continue s).terminal
        = Terminal.LinkBlockFast s.current_location
    ∧ (translateFinalize should_continue s).end_location = s.current_location := by
  rcases hstate with h | h <;>
    simp [translateFinalize, h, hsc, Block.SetTerminal, Block.SetEndLocation]

/-- C5 witness: the theorem applied at a concrete loop-exit state. -/
theorem translateFinalize_default_terminal_witness :
    (translateFinalize true stateTranslatingEQ).terminal
        = Terminal.LinkBlockFast stateTranslatingEQ.current_location
    ∧ (translateFinalize true stateTranslatingEQ).end_location
        = stateTranslatingEQ.current_location :=
  translateFinalize_default_terminal true stateTranslatingEQ rfl
    (Or.inl (by decide)) (by decide)

/-- C7: in every conditional state other than `Break`, a call with condition
`NV` declines, appends exactly one unpredictable-instruction exception marker
to the block, and leaves the block's entry condition (and conditional state)
unchanged. -/
theorem conditionPassed_nv_rejected (s : TState)
    (hstate : s.cond_state ≠ ConditionalState.Break) :
    (ConditionPassed s Cond.NV).1 = false
    ∧ (ConditionPassed s Cond.NV).2.block.instructions
        = s.block.instructions
          ++ [⟨s.block.instructions.length, Opcode.A32ExceptionRaised,
               [Value.u32 s.current_location.arm_pc,
                Value.u64 (exceptionCode Exception.UnpredictableInstruction)], 0⟩]
    ∧ (ConditionPassed s Cond.NV).2.block.cond = s.block.cond
    ∧ (ConditionPassed s Cond.NV).2.cond_state = s.cond_state := by
  simp [ConditionPassed, TState.ExceptionRaised, Block.AppendNewInst]

/-- C7 witness: the theorem applied at a concrete input. -/
theorem conditionPassed_nv_rejected_witness :
    (ConditionPassed stateNoneNonempty Cond.NV).1 = false
    ∧ (ConditionPassed stateNoneNonempty Cond.NV).2.block.instructions
        = stateNoneNonempty.block.instructions
          ++ [⟨stateNoneNonempty.block.instructions.length, Opcode.A32ExceptionRaised,
               [Value.u32 stateNoneNonempty.current_location.arm_pc,
                Value.u64 (exceptionCode Exception.UnpredictableInstruction)], 0⟩]
    ∧ (ConditionPassed stateNoneNonempty Cond.NV).2.block.cond
        = stateNoneNonempty.block.cond
    ∧ (ConditionPassed stateNoneNonempty Cond.NV).2.cond_state
        = stateNoneNonempty.cond_state :=
  conditionPassed_nv_rejected stateNoneNonempty (by decide)

/-- C3 counterexample: a single `ConditionPassed` call with code `EQ` from
`cond_state = None` — but on a block that already holds an instruction — is
declined and moves to `Break` with a fail-cycle-count of 0, contradicting the
claim (`N = 1`: call accepted, count 1, never `Break`) for a `None` start that
is not an empty block. -/
theorem condRun_nonempty_start_breaks :
    (condSeq Cond.EQ stateNoneNonempty 1).cond_state = ConditionalState.Break
    ∧ (condSeq Cond.EQ stateNoneNonempty 1).block.cond_failed_cycle_count ≠ 1
    ∧ (ConditionPassed stateNoneNonempty Cond.EQ).1 ≠ true := by
  decide

/-- C3 (amended): for every `N ≥ 1` and condition code `c ≠ AL`, `c ≠ NV`,
a run of `N` consecutive `ConditionPassed` calls with code `c` at consecutive
locations (each equal to the previously recorded condition-failed location),
starting from `cond_state = None` on a freshly constructed (empty) block,
leaves the fail-cycle-count equal to `N` and the entry condition equal to `c`;
every call is accepted, the state is never `Break`, and each call records the
condition-failed location one instruction width past its own location. -/
theorem condRun_extends_region (c : Cond) (d : LocationDescriptor) (k : Nat)
    (hal : c ≠ Cond.AL) (hnv : c ≠ Cond.NV) (hk : 1 ≤ k) :
    (condSeq c (initState d) k).cond_state = ConditionalState.Translating
    ∧ (condSeq c (initState d) k).block.cond = c
    ∧ (condSeq c (initState d) k).block.cond_failed_cycle_count = k
    ∧ (condSeq c (initState d) k).block.cond_failed = some (d.AdvancePC (4 * k))
    ∧ (∀ j, j < k →
        (ConditionPassed (condSeq c (initState d) j) c).1 = true
        ∧ (condSeq c (initState d) j).cond_state ≠ ConditionalState.Break
        ∧ (ConditionPassed (condSeq c (initState d) j) c).2.block.cond_failed
            = some ((condSeq c (initState d) j).current_location.AdvancePC 4)) := by
  obtain ⟨m, rfl⟩ : ∃ m, k = m + 1 := ⟨k - 1, by omega⟩
  refine ⟨?_, ?_, ?_, ?_, ?_⟩
  · rw [condSeq_closed c d hal hnv m]; rfl
  · rw [condSeq_closed c d hal hnv m]; rfl
  · rw [condSeq_closed c d hal hnv m]; rfl
  · rw [condSeq_closed c d hal hnv m]; rfl
  · intro j hj
    cases j with
    | zero =>
        refine ⟨?_, ?_, ?_⟩
        · rw [show condSeq c (initState d) 0 = initState d from rfl,
            conditionPassed_adopt_eq (initState d) c rfl rfl hal hnv]
        · intro h; exact absurd h (by simp [condSeq, initState])
        · rw [show condSeq c (initState d) 0 = initState d from rfl,
            conditionPassed_adopt_eq (initState d) c rfl rfl hal hnv]
    | succ i =>
        rw [condSeq_closed c d hal hnv i,
          conditionPassed_extend_eq (condRegionState c d (i + 1)) c rfl rfl rfl hal hnv]
        exact ⟨rfl, by simp [condRegionState], rfl⟩

/-- C3 witness: the amended theorem applied at `c = EQ`, a concrete entry
point, and `N = 2`. -/
theorem condRun_extends_region_witness :
    (condSeq Cond.EQ (initState loc0) 2).cond_state = ConditionalState.Translating
    ∧ (condSeq Cond.EQ (initState loc0) 2).block.cond = Cond.EQ
    ∧ (condSeq Cond.EQ (initState loc0) 2).block.cond_failed_cycle_count = 2
    ∧ (condSeq Cond.EQ (initState loc0) 2).block.cond_failed = some (loc0.AdvancePC 8)
    ∧ (ConditionPassed (condSeq Cond.EQ (initState loc0) 1) Cond.EQ).1 = true := by
  have h := condRun_extends_region Cond.EQ loc0 2 (by decide) (by decide) (by omega)
  exact ⟨h.1, h.2.1, h.2.2.1, h.2.2.2.1, (h.2.2.2.2 1 (by omega)).1⟩

/-- C6: an instruction word no decode table matches is routed to the
undefined-instruction fallback: the resulting block carries exactly one
undefined-instruction exception marker, ends in the dispatch-return terminal
`CheckHalt{ReturnToDispatch{}}`, and the run is independent of the remaining
fuel — no further instruction is decoded in the block. -/
theorem translateArm_undecodable_word (fuel : Nat) (d : LocationDescriptor)
    (memory_read_code : Nat → Nat) (decode : Decoder)
    (hmiss : decode (memory_read_code d.arm_pc) = Option.none) :
    TranslateArm (fuel + 1) d memory_read_code decode =
      { location := d
        end_location := d.AdvancePC 4
        cond := Cond.AL
        cond_failed := Option.none
        cond_failed_cycle_count := 0
        instructions := [⟨0, Opcode.A32ExceptionRaised,
          [Value.u32 d.arm_pc, Value.u64 (exceptionCode Exception.UndefinedInstruction)], 0⟩]
        terminal := Terminal.CheckHalt Terminal.ReturnToDispatch
        cycle_count := 1 } := by
  simp [TranslateArm, translateLoop, initState, freshBlock, CondCanContinue,
    dispatch, hmiss, arm_UDF, UndefinedInstruction, TState.ExceptionRaised,
    TState.SetTerm, Block.AppendNewInst, Block.SetTerminal,
    translateLoop_of_not_continue, translateFinalize, Block.SetEndLocation]

/-- C6 witness: the theorem applied to a decoder that matches nothing. -/
theorem translateArm_undecodable_word_witness :
    TranslateArm 1 loc0 (fun _ => 99) (fun _ => Option.none) =
      { location := loc0
        end_location := loc0.AdvancePC 4
        cond := Cond.AL
        cond_failed := Option.none
        cond_failed_cycle_count := 0
        instructions := [⟨0, Opcode.A32ExceptionRaised,
          [Value.u32 loc0.arm_pc, Value.u64 (exceptionCode Exception.UndefinedInstruction)], 0⟩]
        terminal := Terminal.CheckHalt Terminal.ReturnToDispatch
        cycle_count := 1 } :=
  translateArm_undecodable_word 0 loc0 (fun _ => 99) (fun _ => Option.none) rfl

/-- C10: `DumpBlock` is deterministic and side-effect-free: a call leaves the
block exactly as it was, and a second call on the block left behind by the
first produces byte-identical text. -/
theorem dumpBlock_deterministic_pure (b : Block) :
    (DumpBlockCall b).2 = b
    ∧ (DumpBlockCall (DumpBlockCall b).2).1 = (DumpBlockCall b).1 :=
  ⟨rfl, rfl⟩

lemma condInvariant_conditionPassed (s : TState) (c : Cond)
    (h : CondInvariant s.block) :
    CondInvariant (ConditionPassed s c).2.block := by
  unfold CondInvariant at *
  unfold ConditionPassed
  dsimp only
  split_ifs <;>
    simp_all [TState.ExceptionRaised, Block.AppendNewInst, TState.SetTerm,
      Block.SetTerminal, Block.SetCondition, Block.SetConditionFailedLocation]

lemma condInvariant_arm_UDF (s : TState) (h : CondInvariant s.block) :
    CondInvariant (arm_UDF s).2.block := by
  unfold CondInvariant at *
  simpa [arm_UDF, UndefinedInstruction, TState.ExceptionRaised, TState.SetTerm,
    Block.SetTerminal, Block.AppendNewInst] using h

lemma condInvariant_translateLoop (memory_read_code : Nat → Nat) (decode : Decoder)
    (hdec : DecoderPreservesInv decode) :
    ∀ (fuel : Nat) (sc : Bool) (s : TState), CondInvariant s.block →
      CondInvariant (translateLoop memory_read_code decode fuel sc s).2.block := by
  intro fuel
  induction fuel with
  | zero => intro sc s h; simpa [translateLoop] using h
  | succ n ih =>
      intro sc s h
      rw [translateLoop]
      split_ifs with hcont
      · have h1 : CondInvariant
            (dispatch decode (memory_read_code s.current_location.arm_pc) s).2.block := by
          unfold dispatch
          cases hd : decode (memory_read_code s.current_location.arm_pc) with
          | none => exact condInvariant_arm_UDF s h
          | some hh => exact hdec _ _ hd s h
        dsimp only
        split_ifs with hbreak
        · exact h1
        · exact ih _ _ h1
      · simpa using h

/-- C8: in every state reachable from a freshly constructed block through
`ConditionPassed` (and through driver-loop runs whose decoded handlers
preserve it), a non-`AL` entry condition comes with a present condition-failed
location; hence `DumpBlock`'s read of the condition-failed location on the
non-`AL` path is well-defined. -/
theorem cond_nonAL_implies_cond_failed_present :
    (∀ d : LocationDescriptor, CondInvariant (freshBlock d))
    ∧ (∀ (s : TState) (c : Cond),
        CondInvariant s.block → CondInvariant (ConditionPassed s c).2.block)
    ∧ (∀ decode : Decoder, DecoderPreservesInv decode →
        ∀ (fuel : Nat) (d : LocationDescriptor) (memory_read_code : Nat → Nat),
          CondInvariant (TranslateArm fuel d memory_read_code decode))
    ∧ (∀ b : Block, CondInvariant b → b.cond ≠ Cond.AL
        → b.HasConditionFailedLocation = true) := by
  refine ⟨?_, ?_, ?_, ?_⟩
  · intro d hne; exact absurd rfl hne
  · exact condInvariant_conditionPassed
  · intro decode hdec fuel d memory_read_code
    have h0 : CondInvariant (initState d).block := fun hne => absurd rfl hne
    have h1 := condInvariant_translateLoop memory_read_code decode hdec fuel true
      (initState d) h0
    unfold CondInvariant at *
    unfold TranslateArm translateFinalize
    dsimp only
    split_ifs <;> simpa [Block.SetTerminal, Block.SetEndLocation] using h1
  · intro b hinv hne
    unfold Block.HasConditionFailedLocation
    exact hinv hne

/-- C8 witness: the theorem applied to a fresh block, one concrete
`ConditionPassed` adoption, a run of `TranslateArm` with the empty decoder,
and the dump-read side condition. -/
theorem cond_nonAL_implies_cond_failed_present_witness :
    CondInvariant (freshBlock loc0)
    ∧ CondInvariant (ConditionPassed (initState loc0) Cond.EQ).2.block
    ∧ CondInvariant (TranslateArm 2 loc0 (fun _ => 0) (fun _ => Option.none))
    ∧ (ConditionPassed (initState loc0) Cond.EQ).2.block.HasConditionFailedLocation
        = true := by
  have h := cond_nonAL_implies_cond_failed_present
  have hfresh : CondInvariant (initState loc0).block := fun hne => absurd rfl hne
  have hstep := h.2.1 (initState loc0) Cond.EQ hfresh
  refine ⟨h.1 loc0, hstep, ?_, ?_⟩
  · exact h.2.2.1 (fun _ => Option.none) (fun w hh heq => nomatch heq) 2 loc0 (fun _ => 0)
  · exact h.2.2.2 _ hstep (by decide)

/-- C9: a loop iteration whose handler leaves `cond_state = Break` terminates
the loop at once — the returned state is exactly the handler's, the PC is not
advanced, the cycle count is not incremented, and the epilogue neither adds a
terminal nor moves the location: the end location is the breaking
instruction's own location, which is also where every gate-made `Break`
transition points its `LinkBlockFast` terminal. -/
theorem break_stops_translation :
    (∀ (s : TState) (c : Cond), s.cond_state ≠ ConditionalState.Break →
        (ConditionPassed s c).2.cond_state = ConditionalState.Break →
        (ConditionPassed s c).2.current_location = s.current_location
        ∧ (ConditionPassed s c).2.block.cycle_count = s.block.cycle_count
        ∧ (ConditionPassed s c).2.block.terminal
            = Terminal.LinkBlockFast s.current_location)
    ∧ (∀ (memory_read_code : Nat → Nat) (decode : Decoder) (fuel : Nat) (s : TState),
        CondCanContinue s.cond_state s.block = true →
        (dispatch decode (memory_read_code s.current_location.arm_pc) s).2.cond_state
            = ConditionalState.Break →
        translateLoop memory_read_code decode (fuel + 1) true s
            = dispatch decode (memory_read_code s.current_location.arm_pc) s
        ∧ (translateFinalize
              (dispatch decode (memory_read_code s.current_location.arm_pc) s).1
              (dispatch decode (memory_read_code s.current_location.arm_pc) s).2).end_location
            = (dispatch decode (memory_read_code s.current_location.arm_pc) s).2.current_location
        ∧ (translateFinalize
              (dispatch decode (memory_read_code s.current_location.arm_pc) s).1
              (dispatch decode (memory_read_code s.current_location.arm_pc) s).2).cycle_count
            = (dispatch decode (memory_read_code s.current_location.arm_pc) s).2.block.cycle_count
        ∧ (translateFinalize
              (dispatch decode (memory_read_code s.current_location.arm_pc) s).1
              (dispatch decode (memory_read_code s.current_location.arm_pc) s).2).terminal
            = (dispatch decode (memory_read_code s.current_location.arm_pc) s).2.block.terminal) := by
  constructor
  · intro s c hne hbreak
    unfold ConditionPassed at *
    dsimp only at *
    split_ifs at hbreak <;>
      simp_all [TState.ExceptionRaised, Block.AppendNewInst, TState.SetTerm,
        Block.SetTerminal, Block.SetCondition, Block.SetConditionFailedLocation]
  · intro memory_read_code decode fuel s hcc hbreak
    have hloop : translateLoop memory_read_code decode (fuel + 1) true s
        = dispatch decode (memory_read_code s.current_location.arm_pc) s := by
      rw [translateLoop]
      simp [hcc, hbreak]
    refine ⟨hloop, ?_, ?_, ?_⟩ <;>
      simp [translateFinalize, hbreak, Block.SetEndLocation]

/-- C9 witness: the loop part of the theorem applied to a concrete breaking
iteration (an `NE`-conditional instruction inside a matching `EQ`-conditional
region). -/
theorem break_stops_translation_witness :
    translateLoop (fun _ => 0) (fun _ => some neHandler) 1 true stateTranslatingEQ
        = dispatch (fun _ => some neHandler) 0 stateTranslatingEQ
    ∧ (translateFinalize (dispatch (fun _ => some neHandler) 0 stateTranslatingEQ).1
          (dispatch (fun _ => some neHandler) 0 stateTranslatingEQ).2).end_location
        = (dispatch (fun _ => some neHandler) 0 stateTranslatingEQ).2.current_location
    ∧ (translateFinalize (dispatch (fun _ => some neHandler) 0 stateTranslatingEQ).1
          (dispatch (fun _ => some neHandler) 0 stateTranslatingEQ).2).cycle_count
        = (dispatch (fun _ => some neHandler) 0 stateTranslatingEQ).2.block.cycle_count
    ∧ (translateFinalize (dispatch (fun _ => some neHandler) 0 stateTranslatingEQ).1
          (dispatch (fun _ => some neHandler) 0 stateTranslatingEQ).2).terminal
        = (dispatch (fun _ => some neHandler) 0 stateTranslatingEQ).2.block.terminal :=
  break_stops_translation.2 (fun _ => 0) (fun _ => some neHandler) 0 stateTranslatingEQ
    (by decide) (by decide)

/-- C4 counterexample: an always-executed (condition `AL`) instruction at
`loc0` whose handler reports "continue" and sets no terminal does not end the
block there: with the padding always-branch-to-self at the next location, the
produced block's end location is not `loc0 + 4` and its terminal is not
`LinkBlockFast{loc0 + 4}` (it is the padding handler's `LinkBlock`), contrary
to the claim. -/
theorem translateArm_single_AL_not_one_wide :
    (TranslateArm 3 loc0 (c4Fetch loc0) c4Decode).end_location ≠ loc0.AdvancePC 4
    ∧ (TranslateArm 3 loc0 (c4Fetch loc0) c4Decode).terminal
        ≠ Terminal.LinkBlockFast (loc0.AdvancePC 4)
    ∧ (TranslateArm 3 loc0 (c4Fetch loc0) c4Decode).cond = Cond.AL := by
  decide

/-- C4 (amended): translating an always-executed instruction at `L` whose
handler reports "continue" and sets no terminal continues the block past it;
with an always-branch-to-self padding it at `L + 4`, the block has entry
condition `AL`, at least one instruction, end location `L + 8`, and the
padding handler's terminal `LinkBlock{L + 4}` (the default `LinkBlockFast`
never applies since the visitor stays in state `None`). -/
theorem translateArm_AL_with_branch_pad (d : LocationDescriptor) (fuel : Nat)
    (hpc : d.arm_pc + 4 < 4294967296) :
    (TranslateArm (fuel + 2) d (c4Fetch d) c4Decode).cond = Cond.AL
    ∧ (TranslateArm (fuel + 2) d (c4Fetch d) c4Decode).end_location = d.AdvancePC 8
    ∧ 1 ≤ (TranslateArm (fuel + 2) d (c4Fetch d) c4Decode).instructions.length
    ∧ (TranslateArm (fuel + 2) d (c4Fetch d) c4Decode).terminal
        = Terminal.LinkBlock (d.AdvancePC 4) := by
  have hne : (d.AdvancePC 4).arm_pc ≠ d.arm_pc := by
    simp only [LocationDescriptor.AdvancePC]
    rw [Nat.mod_eq_of_lt hpc]
    omega
  simp [TranslateArm, translateLoop, initState, freshBlock, CondCanContinue,
    dispatch, c4Fetch, c4Decode, c4Arith, c4BranchSelf, c4Body, condGatedHandler,
    ConditionPassed, TState.SetTerm, Block.SetTerminal, Block.AppendNewInst,
    translateLoop_of_not_continue, translateFinalize, Block.SetEndLocation,
    AdvancePC_AdvancePC, hne]

/-- C4 witness: the amended theorem applied at a concrete entry point. -/
theorem translateArm_AL_with_branch_pad_witness :
    (TranslateArm 2 loc0 (c4Fetch loc0) c4Decode).cond = Cond.AL
    ∧ (TranslateArm 2 loc0 (c4Fetch loc0) c4Decode).end_location = loc0.AdvancePC 8
    ∧ 1 ≤ (TranslateArm 2 loc0 (c4Fetch loc0) c4Decode).instructions.length
    ∧ (TranslateArm 2 loc0 (c4Fetch loc0) c4Decode).terminal
        = Terminal.LinkBlock (loc0.AdvancePC 4) :=
  translateArm_AL_with_branch_pad loc0 0 (by decide)

end Dynarmic
